import Mathlib

/-!
Verification of the `microf` micro file-manipulation utility
(`src/microf/__main__.py`): the filename metadata translation engine
(IC6000 → CV7000 renaming), the conversion planner, the command
dispatcher (`run`) and the batch job script generator
(`grouper` / `submit_to_slurm`), together with the CLI dispatch in `main`.

Python strings are modelled as Lean `String`; Python exceptions are
modelled by the explicit error type `PyErr`, and fallible code returns
`Except PyErr _`.
-/

/-- Python exceptions that the modelled code can raise.
In Python, `KeyError` and `IndexError` are both subclasses of
`LookupError`; `UnboundLocalError` is a subclass of `NameError`. -/
inductive PyErr where
  /-- `KeyError` from a failed dict lookup (carries the missing key). -/
  | keyError (key : String)
  /-- `IndexError` from indexing past the end of a list. -/
  | indexError
  /-- `NameError` / `UnboundLocalError` from reading an unbound local. -/
  | nameError
  /-- `AttributeError`, e.g. calling a method on `None`. -/
  | attrError
deriving DecidableEq

/-- Whether the exception is an instance of Python class `LookupError`
(true exactly for `KeyError` and `IndexError`). -/
def PyErr.isLookupError : PyErr → Bool
  | .keyError _ => true
  | .indexError => true
  | .nameError => false
  | .attrError => false

/-! ### Python string / path primitives used by the source -/

/-- Python `s.replace(c, "")` for a one-character needle: delete every
occurrence of the character `c` from `s`. -/
def removeChar (c : Char) (s : String) : String :=
  ⟨s.toList.filter (fun x => x ≠ c)⟩

/-- Python `s.zfill(width)`: left-pad with ASCII zeros up to `width`,
inserting the padding after a leading sign character if one is present. -/
def zfill (s : String) (width : Nat) : String :=
  let cs := s.toList
  if width ≤ cs.length then s
  else
    let pad := List.replicate (width - cs.length) '0'
    match cs with
    | [] => ⟨pad⟩
    | c :: rest =>
      if c = '+' ∨ c = '-' then ⟨c :: (pad ++ rest)⟩ else ⟨pad ++ cs⟩

/-- Helper for `pySplitChar`: split a character list at every occurrence
of the separator `c`.  The result is always non-empty. -/
def splitOnCharList (c : Char) : List Char → List (List Char)
  | [] => [[]]
  | x :: xs =>
    match splitOnCharList c xs with
    | [] => []
    | g :: gs => if x = c then [] :: g :: gs else (x :: g) :: gs

/-- Python `s.split(sep)` for a one-character separator `sep`:
`"B-03".split("-") == ["B", "03"]`, `"".split("-") == [""]`,
`"a--b".split("-") == ["a", "", "b"]`. -/
def pySplitChar (c : Char) (s : String) : List String :=
  (splitOnCharList c s.toList).map (fun g => ⟨g⟩)

/-- `os.path.basename` on POSIX: the part of `p` after the last slash. -/
def pyBasename (p : String) : String :=
  ⟨(p.toList.reverse.takeWhile (fun c => c ≠ '/')).reverse⟩

/-- `os.path.dirname` on POSIX: the part of `p` up to the last slash,
with trailing slashes stripped unless the result consists of slashes only. -/
def pyDirname (p : String) : String :=
  let cs := p.toList
  let head := cs.take (cs.length - (cs.reverse.takeWhile (fun c => c ≠ '/')).length)
  if head.all (fun c => c = '/') then ⟨head⟩
  else ⟨(head.reverse.dropWhile (fun c => c = '/')).reverse⟩

/-- `os.path.join` on POSIX, two-argument form. -/
def pyJoin (a b : String) : String :=
  if b.startsWith "/" then b
  else if a = "" ∨ a.endsWith "/" then a ++ b
  else a ++ "/" ++ b

/-- The extension as computed by `os.path.splitext(p)[1]`: the suffix of
the basename from its last dot, except that dots leading the basename do
not start an extension. -/
def splitextExt (p : String) : String :=
  let core := (pyBasename p).toList.dropWhile (fun c => c = '.')
  let afterDotRev := core.reverse.takeWhile (fun c => c ≠ '.')
  if afterDotRev.length < core.length then ⟨'.' :: afterDotRev.reverse⟩ else ""

/-- The stem as computed by `os.path.splitext(p)[0]`: everything before
the extension. -/
def splitextStem (p : String) : String :=
  ⟨p.toList.take (p.toList.length - (splitextExt p).toList.length)⟩

/-! ### Naming-convention data (`CV7000`, `IC6000`) -/

/-- The named capture groups of the IC6000 pattern
`(?P<n>.*_.*)_(?P<w>[A-Z]\D*\d*)\(fld\D*(?P<s>\d*)\D*wv(?P<c>.*)\).(tif|png)`:
experiment name `n`, well `w`, site `s`, channel `c`. -/
structure Params where
  n : String
  w : String
  s : String
  c : String
deriving DecidableEq

/-- The channels dict of the `IC6000` convention entry: raw channel label
→ two-digit code. -/
def IC6000channels : List (String × String) :=
  [("UV-DAPI", "01"), ("Blue-FITC", "02"), ("Green-dsRed", "03"), ("Red-Cy5", "04")]

/-- The `CV7000` target template: four ordered slots
(experiment, well, site, channel) around fixed text. -/
def CV7000format (expName well site channel : String) : String :=
  expName ++ "_" ++ well ++ "_T0001F" ++ site ++ "L01A01Z01C" ++ channel ++ ".tif"

/-- `_IC6000_replace(params, channels)`: extract metadata from the captured
groups.  `exp_name` strips underscores from `n`; the well is split on a
hyphen after stripping spaces (indexing `[1]` raises `IndexError` when no
hyphen is present — and that happens before the channel lookup, which
raises `KeyError` on an unknown label); the site is zero-padded to width 3
and the well number to width 2. -/
def IC6000replace (params : Params) (channels : List (String × String)) :
    Except PyErr (String × String × String × String) :=
  match (pySplitChar '-' (removeChar ' ' params.w)).get? 1 with
  | none => .error .indexError
  | some wn =>
    match List.lookup (removeChar ' ' params.c) channels with
    | none => .error (.keyError (removeChar ' ' params.c))
    | some channel =>
      .ok (removeChar '_' params.n,
        (pySplitChar '-' (removeChar ' ' params.w)).headD "" ++ zfill wn 2,
        zfill params.s 3, channel)

/-! ### `grouper` and `submit_to_slurm` (batch job script generator)

`grouper(iterable, size, fillvalue)` is `izip_longest(*([iter(iterable)] * size),
fillvalue=fillvalue)`: it splits the list into consecutive chunks of exactly
`size` entries, right-padding the last chunk with the fill value.  We model the
fill value `None` by `Option`: real commands become `some`, padding is `none`.
With `size = 0` the call degenerates to `izip_longest()` which yields nothing.
The recursion is expressed with a fuel argument (`fuel = l.length` suffices
when `size > 0`) so that the definition stays structurally recursive and
computable by the kernel. -/

/-- One padded tuple produced by `izip_longest`: the first `size` elements of
`l` wrapped in `some`, right-padded with `none` up to length `size`. -/
def padChunk (size : Nat) (l : List α) : List (Option α) :=
  (l.take size).map some ++ List.replicate (size - l.length) none

/-- Fuel-indexed recursion underlying `grouper`. -/
def grouperFuel (size : Nat) : Nat → List α → List (List (Option α))
  | _, [] => []
  | 0, _ :: _ => []
  | fuel + 1, x :: xs => padChunk size (x :: xs) :: grouperFuel size fuel ((x :: xs).drop size)

/-- `grouper(l, size, None)` from the source. -/
def grouper (size : Nat) (l : List α) : List (List (Option α)) :=
  if size = 0 then [] else grouperFuel size l.length l

/-- The commands actually emitted into one `case` arm of the generated
script: the loop prints commands until it reaches the first `None`
sentinel, then breaks. -/
def emitChunk (chunk : List (Option α)) : List α :=
  (chunk.takeWhile fun c => c.isSome).filterMap id

/-- The per-array-index command chunks written into the script by the
`for n, batch in enumerate(grouper(cmds, size, None))` loop. -/
def emittedChunks (size : Nat) (cmds : List α) : List (List α) :=
  (grouper size cmds).map emitChunk

/-- `int(1 + (5.0 * size) / 60)` from the script header.  The Python value
is nonnegative, so `int` truncation agrees with the floor; float rounding
cannot shift the result for any realistic `size` because the exact value
`1 + size/12` is never within one part in `2^40` of an integer it does not
already equal. -/
def walltimeMinutes (size : Nat) : ℤ :=
  ⌊(1 : ℚ) + (5 * (size : ℚ)) / 60⌋

/-- The observable content of one `submit_to_slurm` invocation: the
`#SBATCH --time` minutes of the resource header, the `case` arms of the
script in index order, and the bounds of the `sbatch --array=lo-hi`
argument. -/
structure SlurmSubmission where
  walltime : ℤ
  caseChunks : List (List String)
  arrayLo : Nat
  arrayHi : Nat
deriving DecidableEq

/-- `submit_to_slurm(cmds, size)`.  The loop variable `n` is only bound by
the `enumerate` loop; when the loop body never runs (no chunks), the later
`sbatch --array=0-{n}` line raises `UnboundLocalError` (a `NameError`) and
the scheduler is never invoked.  Otherwise the submission carries the final
value of `n`, which is `number_of_chunks - 1`. -/
def submitToSlurm (cmds : List String) (size : Nat) : Except PyErr SlurmSubmission :=
  match (emittedChunks size cmds).length with
  | 0 => .error .nameError
  | k + 1 => .ok ⟨walltimeMinutes size, emittedChunks size cmds, 0, k⟩

/-! ### `run` (command dispatcher) -/

/-- An externally observable effect of `run`: a line printed to standard
output, a shell command executed via `check_call`, or a scheduler
submission handed to `sbatch`. -/
inductive Effect where
  | printOut (s : String)
  | shellCall (cmd : String)
  | sbatchCall (sub : SlurmSubmission)
deriving DecidableEq

/-- Whether the effect executes a shell command. -/
def Effect.isShellCall : Effect → Bool
  | .shellCall _ => true
  | _ => false

/-- Whether the effect submits to the scheduler. -/
def Effect.isSbatchCall : Effect → Bool
  | .sbatchCall _ => true
  | _ => false

/-- The summary line printed by direct execution mode. -/
def summaryLine (verb : String) (done errored : Nat) : String :=
  "Successfully applied " ++ verb ++ " to " ++ toString done ++ " files, "
    ++ toString errored ++ " errors."

/-- `run(cmds, just_print, batch, verb)` as the list of effects it
performs.  `execOk` abstracts the exit status of `check_call` on each
command (`true` = exit 0).  `batch` is an integer as in Python, where the
CLI passes the boolean `--batch` flag (`True == 1`); the `elif batch:`
test is truthiness, i.e. `batch ≠ 0`. -/
def run (execOk : String → Bool) (cmds : List String) (justPrint : Bool)
    (batch : Nat) (verb : String) : Except PyErr (List Effect) :=
  if justPrint then
    .ok (cmds.map Effect.printOut)
  else if batch ≠ 0 then
    match submitToSlurm cmds batch with
    | .error e => .error e
    | .ok sub => .ok [Effect.sbatchCall sub]
  else
    .ok ((cmds.map Effect.shellCall) ++
      [Effect.printOut (summaryLine verb
        (cmds.filter execOk).length
        (cmds.filter fun c => !(execOk c)).length)])

/-! ### `rename_func` and `convert_func` (planning passes)

The regular-expression engine is abstracted by a pure function
`search : String → Option Params` standing for
`pattern.search(image_name)` followed by `.groupdict()`: `none` models a
failed search (`match is None`), `some p` a successful one with captured
groups `p`.  `re.search` is deterministic, so two applications to the
same string are the same value. -/

/-- First pass of `rename_func`: split the inbox into the `to_do` list
(paths whose basename matches the pattern, in order) and the `ignored`
counter. -/
def renameFilter (search : String → Option Params) :
    List String → List String × Nat
  | [] => ([], 0)
  | p :: rest =>
    let acc := renameFilter search rest
    if (search (pyBasename p)).isSome then (p :: acc.1, acc.2)
    else (acc.1, acc.2 + 1)

/-- Second pass of `rename_func`, for one path: re-run the pattern search
on the basename, extract the captured groups (`match.groupdict()` raises
`AttributeError` when the match is `None`), translate them, and build the
`mv` command to the new name in the same directory. -/
def buildRenameCmd (search : String → Option Params) (path : String) :
    Except PyErr String :=
  match search (pyBasename path) with
  | none => .error .attrError
  | some params =>
    match IC6000replace params IC6000channels with
    | .error e => .error e
    | .ok (expName, well, site, channel) =>
      .ok ("mv \x27" ++ path ++ "\x27 \x27"
        ++ pyJoin (pyDirname path) (CV7000format expName well site channel) ++ "\x27")

/-- Second pass of `rename_func` over the whole `to_do` list: the loop
appends one command per path and an uncaught exception aborts the loop. -/
def buildRenameCmds (search : String → Option Params) :
    List String → Except PyErr (List String)
  | [] => .ok []
  | p :: rest =>
    match buildRenameCmd search p with
    | .error e => .error e
    | .ok c =>
      match buildRenameCmds search rest with
      | .error e => .error e
      | .ok cs => .ok (c :: cs)

/-- Filtering pass of `convert_func`: paths whose lower-cased extension is
`.tif` or `.tiff` become (source, destination) pairs with the extension
replaced by `.png`; the rest increment the `ignored` counter. -/
def convertFilter : List String → List (String × String) × Nat
  | [] => ([], 0)
  | p :: rest =>
    let acc := convertFilter rest
    if (splitextExt p).toLower = ".tif" ∨ (splitextExt p).toLower = ".tiff" then
      ((p, splitextStem p ++ ".png") :: acc.1, acc.2)
    else (acc.1, acc.2 + 1)

/-! ### `main` (CLI dispatch) -/

/-- The parsed command-line arguments used by `main`. -/
structure CliArgs where
  action : String
  path : List String
  keep : Bool
  check : Bool
  batch : Bool
deriving DecidableEq

/-- `posix.EX_USAGE`. -/
def EX_USAGE : Nat := 64

/-- What `main` does after parsing, before any filesystem access: either
exit with a usage error, or enter `rename_func` / `convert_func` (which is
where path collection and pattern matching happen). -/
inductive MainResult where
  | usageExit (code : Nat)
  | runRename (args : CliArgs)
  | runConvert (args : CliArgs)
  | fallThrough
deriving DecidableEq

/-- The dispatch at the end of `main`: the `--keep`/`rename` conflict is
checked first and exits with `posix.EX_USAGE` before `rename_func` is
entered. -/
def mainDispatch (args : CliArgs) : MainResult :=
  if args.action = "rename" then
    if args.keep then .usageExit EX_USAGE else .runRename args
  else if args.action = "convert" then .runConvert args
  else .fallThrough


/-! ### Lemmas about the chunking pipeline -/

lemma takeWhile_isSome_map_some (xs : List α) (ys : List (Option α)) :
    ((xs.map some ++ ys).takeWhile fun c => c.isSome)
      = xs.map some ++ (ys.takeWhile fun c => c.isSome) := by
  induction xs with
  | nil => rfl
  | cons a as ih => simp [List.takeWhile_cons, ih]

lemma takeWhile_isSome_replicate_none (k : Nat) :
    ((List.replicate k (none : Option α)).takeWhile fun c => c.isSome) = [] := by
  cases k with
  | zero => rfl
  | succ m => simp [List.replicate, List.takeWhile_cons]

lemma filterMap_id_map_some (xs : List α) : (xs.map some).filterMap id = xs := by
  induction xs with
  | nil => rfl
  | cons a as ih => simp [List.filterMap_cons, ih]

lemma emitChunk_padChunk (size : Nat) (l : List α) :
    emitChunk (padChunk size l) = l.take size := by
  unfold emitChunk padChunk
  rw [takeWhile_isSome_map_some, takeWhile_isSome_replicate_none, List.append_nil,
    filterMap_id_map_some]

lemma grouperFuel_nil (size fuel : Nat) : grouperFuel size fuel ([] : List α) = [] := by
  cases fuel <;> rfl

lemma grouperFuel_cons (size fuel : Nat) (x : α) (xs : List α) :
    grouperFuel size (fuel + 1) (x :: xs)
      = padChunk size (x :: xs) :: grouperFuel size fuel ((x :: xs).drop size) := rfl

lemma grouperFuel_join (size : Nat) (hs : 0 < size) :
    ∀ (fuel : Nat) (l : List α), l.length ≤ fuel →
      ((grouperFuel size fuel l).map emitChunk).flatten = l := by
  intro fuel
  induction fuel with
  | zero =>
    intro l hl
    have hnil : l = [] := List.eq_nil_of_length_eq_zero (Nat.le_zero.mp hl)
    subst hnil; rfl
  | succ fuel ih =>
    intro l hl
    cases l with
    | nil => rfl
    | cons x xs =>
      rw [grouperFuel_cons, List.map_cons, List.flatten_cons, emitChunk_padChunk]
      rw [ih ((x :: xs).drop size)
        (by simp only [List.length_drop, List.length_cons] at hl ⊢; omega)]
      exact List.take_append_drop size (x :: xs)

lemma grouperFuel_chunk_le (size : Nat) (hs : 0 < size) :
    ∀ (fuel : Nat) (l : List α), l.length ≤ fuel →
      ∀ c ∈ (grouperFuel size fuel l).map emitChunk, c.length ≤ size := by
  intro fuel
  induction fuel with
  | zero =>
    intro l hl c hc
    have hnil : l = [] := List.eq_nil_of_length_eq_zero (Nat.le_zero.mp hl)
    subst hnil
    simp [grouperFuel_nil] at hc
  | succ fuel ih =>
    intro l hl c hc
    cases l with
    | nil => simp [grouperFuel_nil] at hc
    | cons x xs =>
      rw [grouperFuel_cons, List.map_cons, emitChunk_padChunk, List.mem_cons] at hc
      rcases hc with rfl | hc
      · exact List.length_take_le size (x :: xs)
      · refine ih ((x :: xs).drop size) ?_ c hc
        simp only [List.length_drop, List.length_cons] at hl ⊢
        omega

lemma grouperFuel_length (size : Nat) (hs : 0 < size) :
    ∀ (fuel : Nat) (l : List α), l.length ≤ fuel →
      (grouperFuel size fuel l).length = (l.length + size - 1) / size := by
  intro fuel
  induction fuel with
  | zero =>
    intro l hl
    have hnil : l = [] := List.eq_nil_of_length_eq_zero (Nat.le_zero.mp hl)
    subst hnil
    simp [grouperFuel_nil, Nat.div_eq_of_lt (by omega : size - 1 < size)]
  | succ fuel ih =>
    intro l hl
    cases l with
    | nil => simp [grouperFuel_nil, Nat.div_eq_of_lt (by omega : size - 1 < size)]
    | cons x xs =>
      rw [grouperFuel_cons, List.length_cons]
      rw [ih ((x :: xs).drop size)
        (by simp only [List.length_drop, List.length_cons] at hl ⊢; omega)]
      simp only [List.length_drop, List.length_cons]
      have h1 : xs.length + 1 + size - 1 = (xs.length + 1 - 1) + size := by omega
      rw [h1, Nat.add_div_right _ hs]
      rcases le_or_lt size (xs.length + 1) with hcase | hcase
      · have h2 : xs.length + 1 - size + size - 1 = xs.length + 1 - 1 := by omega
        rw [h2]
      · have h2 : xs.length + 1 - size + size - 1 = size - 1 := by omega
        rw [h2, Nat.div_eq_of_lt (by omega : size - 1 < size),
          Nat.div_eq_of_lt (by omega : xs.length + 1 - 1 < size)]

lemma grouperFuel_dropLast (size : Nat) (hs : 0 < size) :
    ∀ (fuel : Nat) (l : List α), l.length ≤ fuel →
      ∀ c ∈ ((grouperFuel size fuel l).map emitChunk).dropLast, c.length = size := by
  intro fuel
  induction fuel with
  | zero =>
    intro l hl c hc
    have hnil : l = [] := List.eq_nil_of_length_eq_zero (Nat.le_zero.mp hl)
    subst hnil
    simp [grouperFuel_nil] at hc
  | succ fuel ih =>
    intro l hl c hc
    cases l with
    | nil => simp [grouperFuel_nil] at hc
    | cons x xs =>
      rw [grouperFuel_cons, List.map_cons, emitChunk_padChunk] at hc
      rcases hrest : (grouperFuel size fuel ((x :: xs).drop size)).map emitChunk with
        _ | ⟨r, rs⟩
      · rw [hrest] at hc; simp at hc
      · rw [hrest, List.dropLast_cons₂, List.mem_cons] at hc
        have hdrop : (x :: xs).drop size ≠ [] := by
          intro hnil2
          rw [hnil2, grouperFuel_nil] at hrest
          simp at hrest
        have hlen : size < (x :: xs).length := by
          rcases le_or_lt (x :: xs).length size with hle | hlt
          · exact absurd (List.drop_eq_nil_of_le hle) hdrop
          · exact hlt
        rcases hc with rfl | hc
        · rw [List.length_take]
          simp only [List.length_cons] at hlen ⊢
          omega
        · rw [← hrest] at hc
          refine ih ((x :: xs).drop size) ?_ c hc
          simp only [List.length_drop, List.length_cons] at hl ⊢
          omega

lemma emittedChunks_flatten (size : Nat) (hs : 0 < size) (cmds : List α) :
    (emittedChunks size cmds).flatten = cmds := by
  unfold emittedChunks grouper
  rw [if_neg (Nat.pos_iff_ne_zero.mp hs)]
  exact grouperFuel_join size hs cmds.length cmds le_rfl

lemma emittedChunks_chunk_le (size : Nat) (hs : 0 < size) (cmds : List α) :
    ∀ c ∈ emittedChunks size cmds, c.length ≤ size := by
  unfold emittedChunks grouper
  rw [if_neg (Nat.pos_iff_ne_zero.mp hs)]
  exact grouperFuel_chunk_le size hs cmds.length cmds le_rfl

lemma emittedChunks_length (size : Nat) (hs : 0 < size) (cmds : List α) :
    (emittedChunks size cmds).length = (cmds.length + size - 1) / size := by
  unfold emittedChunks grouper
  rw [if_neg (Nat.pos_iff_ne_zero.mp hs), List.length_map]
  exact grouperFuel_length size hs cmds.length cmds le_rfl

lemma emittedChunks_dropLast (size : Nat) (hs : 0 < size) (cmds : List α) :
    ∀ c ∈ (emittedChunks size cmds).dropLast, c.length = size := by
  unfold emittedChunks grouper
  rw [if_neg (Nat.pos_iff_ne_zero.mp hs)]
  exact grouperFuel_dropLast size hs cmds.length cmds le_rfl

/-! ### Lemmas about the planning passes -/

lemma renameFilter_mem_isSome (search : String → Option Params) (inbox : List String) :
    ∀ p ∈ (renameFilter search inbox).1, (search (pyBasename p)).isSome = true := by
  induction inbox with
  | nil => intro p hp; cases hp
  | cons q rest ih =>
    intro p hp
    by_cases hq : (search (pyBasename q)).isSome = true
    · simp only [renameFilter, hq, if_true, List.mem_cons] at hp
      rcases hp with rfl | hp
      · exact hq
      · exact ih p hp
    · simp only [renameFilter, hq, if_false] at hp
      exact ih p hp

lemma renameFilter_count (search : String → Option Params) (inbox : List String) :
    (renameFilter search inbox).1.length + (renameFilter search inbox).2 = inbox.length := by
  induction inbox with
  | nil => rfl
  | cons q rest ih =>
    by_cases hq : (search (pyBasename q)).isSome = true
    · simp only [renameFilter, if_pos hq, List.length_cons]
      omega
    · simp only [renameFilter, if_neg hq, List.length_cons]
      omega

lemma convertFilter_count (inbox : List String) :
    (convertFilter inbox).1.length + (convertFilter inbox).2 = inbox.length := by
  induction inbox with
  | nil => rfl
  | cons q rest ih =>
    by_cases hq : (splitextExt q).toLower = ".tif" ∨ (splitextExt q).toLower = ".tiff"
    · simp only [convertFilter, if_pos hq, List.length_cons]
      omega
    · simp only [convertFilter, if_neg hq, List.length_cons]
      omega

/-! ### Lemmas about the translation step -/

lemma IC6000replace_error_isLookup (p : Params) (channels : List (String × String))
    (e : PyErr) (h : IC6000replace p channels = .error e) : e.isLookupError = true := by
  unfold IC6000replace at h
  split at h
  · cases h; rfl
  · split at h
    · cases h; rfl
    · cases h

lemma IC6000replace_channel_missing (p : Params)
    (h : List.lookup (removeChar ' ' p.c) IC6000channels = none) :
    ∃ e, IC6000replace p IC6000channels = .error e ∧ e.isLookupError = true := by
  unfold IC6000replace
  split
  · exact ⟨.indexError, rfl, rfl⟩
  · rw [h]
    exact ⟨.keyError (removeChar ' ' p.c), rfl, rfl⟩

lemma buildRenameCmd_error_isLookup (search : String → Option Params) (q : String)
    (hq : (search (pyBasename q)).isSome = true) (e : PyErr)
    (h : buildRenameCmd search q = .error e) : e.isLookupError = true := by
  unfold buildRenameCmd at h
  cases hsq : search (pyBasename q) with
  | none => rw [hsq] at hq; simp at hq
  | some pq =>
    simp only [hsq] at h
    cases hrep : IC6000replace pq IC6000channels with
    | error e2 =>
      simp only [hrep] at h
      cases h
      exact IC6000replace_error_isLookup pq _ _ hrep
    | ok v =>
      obtain ⟨a, b, c, d⟩ := v
      simp only [hrep] at h
      cases h

lemma buildRenameCmd_channel_missing (search : String → Option Params) (path : String)
    (params : Params) (hparams : search (pyBasename path) = some params)
    (hchan : List.lookup (removeChar ' ' params.c) IC6000channels = none) :
    ∃ e, buildRenameCmd search path = .error e ∧ e.isLookupError = true := by
  obtain ⟨e, he, hl⟩ := IC6000replace_channel_missing params hchan
  refine ⟨e, ?_, hl⟩
  unfold buildRenameCmd
  simp only [hparams, he]

lemma buildRenameCmds_error_of_mem (search : String → Option Params)
    (toDo : List String)
    (hmatch : ∀ p ∈ toDo, (search (pyBasename p)).isSome = true)
    (path : String) (hpath : path ∈ toDo) (params : Params)
    (hparams : search (pyBasename path) = some params)
    (hchan : List.lookup (removeChar ' ' params.c) IC6000channels = none) :
    ∃ e, buildRenameCmds search toDo = .error e ∧ e.isLookupError = true := by
  induction toDo with
  | nil => cases hpath
  | cons q rest ih =>
    cases hq : buildRenameCmd search q with
    | error e =>
      refine ⟨e, ?_, buildRenameCmd_error_isLookup search q
        (hmatch q (List.mem_cons_self q rest)) e hq⟩
      unfold buildRenameCmds
      simp only [hq]
    | ok c =>
      have hpath2 : path ∈ rest := by
        rcases List.mem_cons.mp hpath with rfl | hmem
        · obtain ⟨e, he, _⟩ := buildRenameCmd_channel_missing search path params hparams hchan
          rw [he] at hq
          cases hq
        · exact hmem
      obtain ⟨e, he, hl⟩ := ih (fun p hp => hmatch p (List.mem_cons_of_mem q hp)) hpath2
      refine ⟨e, ?_, hl⟩
      unfold buildRenameCmds
      simp only [hq, he]

/-! ### Lemmas about the script header walltime -/

lemma walltimeMinutes_eq (size : Nat) :
    walltimeMinutes size = 1 + ((5 * size) / 60 : ℕ) := by
  unfold walltimeMinutes
  have h5 : (5 * (size : ℚ)) = ((5 * size : ℕ) : ℚ) := by push_cast; ring
  have h1 : ((1 : ℚ)) = ((1 : ℤ) : ℚ) := by norm_num
  have h60 : ((60 : ℚ)) = ((60 : ℕ) : ℚ) := by norm_num
  rw [h5, h1, h60, Int.floor_int_add]
  rw [show (((5 * size : ℕ) : ℚ)) = (((5 * size : ℕ) : ℤ) : ℚ) by push_cast; ring]
  rw [Rat.floor_intCast_div_natCast (5 * size : ℕ) 60]
  push_cast
  ring

/-! ### Claim theorems -/

/-- C1: for every command list and every positive chunk size, the chunks
emitted by the batch job script generator concatenate, in index order then
intra-chunk order, to exactly the original commands (so no padding
sentinel ever appears among them); every chunk has at most `size`
commands; all chunks except possibly the last have exactly `size`
commands; and the number of chunks equals `ceil(length / size)`, i.e.
`(length + size - 1) / size` in natural division. -/
theorem partition_correct (cmds : List String) (size : Nat) (hs : 0 < size) :
    (emittedChunks size cmds).flatten = cmds
    ∧ (∀ c ∈ emittedChunks size cmds, c.length ≤ size)
    ∧ (∀ c ∈ (emittedChunks size cmds).dropLast, c.length = size)
    ∧ (emittedChunks size cmds).length = (cmds.length + size - 1) / size :=
  ⟨emittedChunks_flatten size hs cmds, emittedChunks_chunk_le size hs cmds,
    emittedChunks_dropLast size hs cmds, emittedChunks_length size hs cmds⟩

/-- Witness for C1 at a concrete input: seven commands in chunks of three. -/
theorem partition_correct_witness :
    0 < 3
    ∧ ((emittedChunks 3 ["a", "b", "c", "d", "e", "f", "g"]).flatten
          = ["a", "b", "c", "d", "e", "f", "g"]
        ∧ (∀ c ∈ emittedChunks 3 ["a", "b", "c", "d", "e", "f", "g"], c.length ≤ 3)
        ∧ (∀ c ∈ (emittedChunks 3 ["a", "b", "c", "d", "e", "f", "g"]).dropLast,
            c.length = 3)
        ∧ (emittedChunks 3 ["a", "b", "c", "d", "e", "f", "g"]).length
          = (["a", "b", "c", "d", "e", "f", "g"].length + 3 - 1) / 3) :=
  ⟨by decide, partition_correct ["a", "b", "c", "d", "e", "f", "g"] 3 (by decide)⟩

/-- C2: for any input path whose basename the IC6000 pattern matches with
captured metadata experiment `E1`, well `B-03`, site `4`, channel
`Blue-FITC`, the renamer builds the move command whose destination is
`E1_B03_T0001F004L01A01Z01C02.tif` (channel mapped to `02` by the
registry, site zero-padded to width 3, well number zero-padded to width
2), joined to the directory of the source file. -/
theorem roundtrip_naming (search : String → Option Params) (path : String)
    (h : search (pyBasename path) = some ⟨"E1", "B-03", "4", "Blue-FITC"⟩) :
    buildRenameCmd search path
      = .ok ("mv \x27" ++ path ++ "\x27 \x27"
          ++ pyJoin (pyDirname path) "E1_B03_T0001F004L01A01Z01C02.tif" ++ "\x27") := by
  unfold buildRenameCmd
  simp only [h]
  rfl

/-- Witness for C2 at a concrete search function and path. -/
theorem roundtrip_naming_witness :
    ((fun s => if s = "E1_x_B - 03(fld 4 wv Blue - FITC).tif"
        then some (⟨"E1", "B-03", "4", "Blue-FITC"⟩ : Params) else none)
      (pyBasename "/data/E1_x_B - 03(fld 4 wv Blue - FITC).tif")
        = some (⟨"E1", "B-03", "4", "Blue-FITC"⟩ : Params))
    ∧ buildRenameCmd
        (fun s => if s = "E1_x_B - 03(fld 4 wv Blue - FITC).tif"
          then some (⟨"E1", "B-03", "4", "Blue-FITC"⟩ : Params) else none)
        "/data/E1_x_B - 03(fld 4 wv Blue - FITC).tif"
      = .ok ("mv \x27" ++ "/data/E1_x_B - 03(fld 4 wv Blue - FITC).tif" ++ "\x27 \x27"
          ++ pyJoin (pyDirname "/data/E1_x_B - 03(fld 4 wv Blue - FITC).tif")
              "E1_B03_T0001F004L01A01Z01C02.tif" ++ "\x27") :=
  ⟨by decide, roundtrip_naming _ _ (by decide)⟩

/-- Modelled from the spec: the walltime formula the spec claims for the
resource header, `ceil(1 + 5 * chunkSize / 60)` minutes. -/
def ceilWalltimeMinutes (size : Nat) : ℤ :=
  ⌈(1 : ℚ) + (5 * (size : ℚ)) / 60⌉

/-- C3 (counterexample): the claim that the declared walltime equals
`ceil(1 + 5 * size / 60)` fails, e.g. at chunk size 1 the script header
declares 1 minute while the ceiling formula gives 2. -/
theorem walltime_ceil_counterexample :
    ¬ (∀ (cmds : List String) (size : Nat) (sub : SlurmSubmission),
        0 < size → submitToSlurm cmds size = .ok sub →
        sub.walltime = ceilWalltimeMinutes size) := by
  intro hclaim
  have h := hclaim ["cmd"] 1 ⟨walltimeMinutes 1, [["cmd"]], 0, 0⟩ (by norm_num) rfl
  have hfl : walltimeMinutes 1 = 1 := by
    rw [walltimeMinutes_eq]
    norm_num
  have hcl : ceilWalltimeMinutes 1 = 2 := by
    unfold ceilWalltimeMinutes
    rw [Int.ceil_eq_iff]
    constructor <;> norm_num
  rw [hfl, hcl] at h
  exact absurd h (by norm_num)

/-- C3 (amended): the walltime declared in the generated resource header
is the truncation `int(1 + 5 * size / 60)`, i.e. `1 + (5 * size) / 60` in
natural division — the floor, not the ceiling, of `1 + 5 * size / 60`. -/
theorem walltime_floor (cmds : List String) (size : Nat) (sub : SlurmSubmission)
    (h : submitToSlurm cmds size = .ok sub) :
    sub.walltime = 1 + ((5 * size) / 60 : ℕ) := by
  unfold submitToSlurm at h
  split at h
  · cases h
  · cases h
    exact walltimeMinutes_eq size

/-- Witness for C3 (amended) at a concrete submission. -/
theorem walltime_floor_witness :
    submitToSlurm ["cmd"] 1 = .ok ⟨walltimeMinutes 1, [["cmd"]], 0, 0⟩
    ∧ (SlurmSubmission.mk (walltimeMinutes 1) [["cmd"]] 0 0).walltime
        = 1 + ((5 * 1) / 60 : ℕ) :=
  ⟨rfl, walltime_floor ["cmd"] 1 ⟨walltimeMinutes 1, [["cmd"]], 0, 0⟩ rfl⟩

/-- C4: for every non-empty command list and positive chunk size, the
array range handed to `sbatch` starts at 0 and its inclusive upper bound
is `number_of_chunks - 1`, where `number_of_chunks = ceil(length / size)`. -/
theorem array_bounds (cmds : List String) (size : Nat)
    (hne : cmds ≠ []) (hs : 0 < size) :
    ∃ sub : SlurmSubmission, submitToSlurm cmds size = .ok sub
      ∧ sub.arrayLo = 0
      ∧ sub.arrayHi = (cmds.length + size - 1) / size - 1 := by
  have hlen : (emittedChunks size cmds).length = (cmds.length + size - 1) / size :=
    emittedChunks_length size hs cmds
  have hpos : 0 < (emittedChunks size cmds).length := by
    rw [hlen]
    have hL : 0 < cmds.length := List.length_pos.mpr hne
    exact Nat.div_pos (by omega) hs
  obtain ⟨k, hk⟩ : ∃ k, (emittedChunks size cmds).length = k + 1 :=
    ⟨(emittedChunks size cmds).length - 1, by omega⟩
  refine ⟨⟨walltimeMinutes size, emittedChunks size cmds, 0, k⟩, ?_, rfl, ?_⟩
  · unfold submitToSlurm
    rw [hk]
  · show k = (cmds.length + size - 1) / size - 1
    omega

/-- Witness for C4 at a concrete input: five commands in chunks of two
give array bounds 0 to 2. -/
theorem array_bounds_witness :
    (["a", "b", "c", "d", "e"] ≠ ([] : List String))
    ∧ 0 < 2
    ∧ (∃ sub : SlurmSubmission, submitToSlurm ["a", "b", "c", "d", "e"] 2 = .ok sub
        ∧ sub.arrayLo = 0
        ∧ sub.arrayHi = (["a", "b", "c", "d", "e"].length + 2 - 1) / 2 - 1) :=
  ⟨by decide, by decide, array_bounds ["a", "b", "c", "d", "e"] 2 (by decide) (by decide)⟩

/-- C5: on an empty command list the generator never reaches the
scheduler invocation with a degenerate array bound: the loop variable `n`
of the enumeration is never bound, so the `sbatch --array=0-{n}` line
raises `UnboundLocalError` (a `NameError`) instead of submitting. -/
theorem empty_no_submission (size : Nat) :
    submitToSlurm [] size = .error PyErr.nameError := by
  have hch : emittedChunks size ([] : List String) = [] := by
    unfold emittedChunks grouper
    split
    · rfl
    · rw [grouperFuel_nil]
      rfl
  unfold submitToSlurm
  rw [hch]
  rfl

/-- C6: whenever some file in the to-do list has a channel label (after
whitespace stripping) that is not a key of the IC6000 channel map, the
command-building pass of the renamer fails with an error that is a Python
`LookupError` — it is not swallowed, counted, or converted into a skip.
(When the well field of such a file also lacks a hyphen the translation
raises `IndexError` first; `IndexError` is a `LookupError` too.) -/
theorem unknown_channel_lookup_error (search : String → Option Params)
    (inbox : List String) (path : String) (params : Params)
    (hpath : path ∈ (renameFilter search inbox).1)
    (hparams : search (pyBasename path) = some params)
    (hchan : List.lookup (removeChar ' ' params.c) IC6000channels = none) :
    ∃ e, buildRenameCmds search (renameFilter search inbox).1 = .error e
      ∧ e.isLookupError = true :=
  buildRenameCmds_error_of_mem search (renameFilter search inbox).1
    (renameFilter_mem_isSome search inbox) path hpath params hparams hchan

/-- Witness for C6: one matching file whose channel label `Chartreuse` is
not in the channel map. -/
theorem unknown_channel_lookup_error_witness :
    ("/d/img.tif" ∈ (renameFilter
        (fun s => if s = "img.tif"
          then some (⟨"E_1", "B-03", "4", "Chartreuse"⟩ : Params) else none)
        ["/d/img.tif"]).1)
    ∧ ((fun s => if s = "img.tif"
          then some (⟨"E_1", "B-03", "4", "Chartreuse"⟩ : Params) else none)
        (pyBasename "/d/img.tif") = some (⟨"E_1", "B-03", "4", "Chartreuse"⟩ : Params))
    ∧ List.lookup (removeChar ' ' (⟨"E_1", "B-03", "4", "Chartreuse"⟩ : Params).c)
        IC6000channels = none
    ∧ (∃ e, buildRenameCmds
        (fun s => if s = "img.tif"
          then some (⟨"E_1", "B-03", "4", "Chartreuse"⟩ : Params) else none)
        (renameFilter
          (fun s => if s = "img.tif"
            then some (⟨"E_1", "B-03", "4", "Chartreuse"⟩ : Params) else none)
          ["/d/img.tif"]).1 = .error e
        ∧ e.isLookupError = true) :=
  ⟨by decide, by decide, by decide,
    unknown_channel_lookup_error
      (fun s => if s = "img.tif"
        then some (⟨"E_1", "B-03", "4", "Chartreuse"⟩ : Params) else none)
      ["/d/img.tif"] "/d/img.tif" ⟨"E_1", "B-03", "4", "Chartreuse"⟩
      (by decide) (by decide) (by decide)⟩

/-- C7: for every collected input list, both the renamer and the
converter filtering passes satisfy `to_do.length + ignored = total`:
each collected path is counted exactly once. -/
theorem counts_complete (search : String → Option Params) (inbox : List String) :
    (renameFilter search inbox).1.length + (renameFilter search inbox).2 = inbox.length
    ∧ (convertFilter inbox).1.length + (convertFilter inbox).2 = inbox.length :=
  ⟨renameFilter_count search inbox, convertFilter_count inbox⟩

/-- C8: combining the rename action with the keep flag makes `main` exit
with `posix.EX_USAGE` before `rename_func` is entered — so before any
path is collected or any pattern is matched. -/
theorem keep_rename_conflict (args : CliArgs) (haction : args.action = "rename")
    (hkeep : args.keep = true) :
    mainDispatch args = .usageExit EX_USAGE := by
  unfold mainDispatch
  rw [haction, hkeep]
  simp

/-- Witness for C8 at a concrete argument vector. -/
theorem keep_rename_conflict_witness :
    ((⟨"rename", ["f.tif"], true, false, false⟩ : CliArgs).action = "rename")
    ∧ ((⟨"rename", ["f.tif"], true, false, false⟩ : CliArgs).keep = true)
    ∧ mainDispatch ⟨"rename", ["f.tif"], true, false, false⟩ = .usageExit EX_USAGE :=
  ⟨rfl, rfl, keep_rename_conflict ⟨"rename", ["f.tif"], true, false, false⟩ rfl rfl⟩

/-- C9: in preview mode (`just_print` true) `run` prints every command,
in order, to standard output, performs no shell execution and no
scheduler submission, and always succeeds — even when the batch flag is
also set. -/
theorem preview_prints_only (execOk : String → Bool) (cmds : List String)
    (batch : Nat) (verb : String) :
    run execOk cmds true batch verb = .ok (cmds.map Effect.printOut)
    ∧ ∀ e ∈ cmds.map Effect.printOut,
        e.isShellCall = false ∧ e.isSbatchCall = false := by
  refine ⟨rfl, ?_⟩
  intro e he
  obtain ⟨c, _, rfl⟩ := List.mem_map.mp he
  exact ⟨rfl, rfl⟩

/-- C10: every path the first filtering pass of `rename_func` puts into
the to-do list is guaranteed to match again when the pattern is re-applied
to its basename in the second pass, so the extraction of the captured
groups never operates on a failed (`None`) match — the renamer can never
raise the `AttributeError` that a failed second search would produce. -/
theorem second_search_always_matches (search : String → Option Params)
    (inbox : List String) (path : String)
    (hpath : path ∈ (renameFilter search inbox).1) :
    (search (pyBasename path)).isSome = true
    ∧ buildRenameCmd search path ≠ .error PyErr.attrError := by
  have h := renameFilter_mem_isSome search inbox path hpath
  refine ⟨h, ?_⟩
  intro hcontra
  have hlk := buildRenameCmd_error_isLookup search path h PyErr.attrError hcontra
  simp [PyErr.isLookupError] at hlk

/-- Witness for C10 at a concrete search function and inbox. -/
theorem second_search_always_matches_witness :
    ("/d/ok.tif" ∈ (renameFilter
        (fun s => if s = "ok.tif"
          then some (⟨"E_1", "B-03", "4", "Blue-FITC"⟩ : Params) else none)
        ["/d/ok.tif"]).1)
    ∧ (((fun s => if s = "ok.tif"
          then some (⟨"E_1", "B-03", "4", "Blue-FITC"⟩ : Params) else none)
        (pyBasename "/d/ok.tif")).isSome = true
      ∧ buildRenameCmd
          (fun s => if s = "ok.tif"
            then some (⟨"E_1", "B-03", "4", "Blue-FITC"⟩ : Params) else none)
          "/d/ok.tif" ≠ .error PyErr.attrError) :=
  ⟨by decide, second_search_always_matches
    (fun s => if s = "ok.tif"
      then some (⟨"E_1", "B-03", "4", "Blue-FITC"⟩ : Params) else none)
    ["/d/ok.tif"] "/d/ok.tif" (by decide)⟩
